import Mathlib

/-!
Verification development for the Tezos delegation ingestion service.

This file shallowly embeds the ingestion core of the repository:

* the domain record `Delegation` (internal/domain, `Delegation` struct);
* the relational store semantics of `Repository.SaveBatch` and
  `Repository.Save` (internal/infrastructure/postgres/repository.go),
  including the `ON CONFLICT (operation_hash) DO UPDATE` upsert,
  `GetLastIndexedLevel` (`MAX(CAST(level AS BIGINT))`), `FindAll`
  (ordered by timestamp descending), and the `indexing_metadata`
  singleton created by `RunMigrations`;
* the TzKT client (internal/infrastructure/tzkt/client.go): the resty
  retry loop configured by `NewClient`, `GetDelegations`, the query
  parameter builders of `GetDelegationsSince` /
  `GetDelegationsFromLevel`, and the paginated producer
  `GetHistoricalDelegations`;
* the application service (internal/application/service.go):
  `convertToDomainDelegations`, `pollOnce`, `pollLoop`,
  `indexHistorical`, `StartPolling`, `StopPolling`.

Time instants (Go `time.Time`) are modelled as integers (seconds);
Go `int64` JSON decoding is modelled with explicit range checks.
Database-level effects are modelled as pure state transitions on a list
of rows, with the repository operations performed by a code path
recorded as an explicit trace.
-/

deriving instance DecidableEq for Except

namespace TezosDelegation

/-- The domain `Delegation` struct (internal/domain): row of the
`delegations` table. `timestamp` and `createdAt` are instants in
seconds; every other field is a string exactly as in the Go struct. -/
structure Delegation where
  id : String
  timestamp : Int
  amount : String
  delegator : String
  level : String
  blockHash : String
  operationHash : String
  createdAt : Int
  deriving Repr, DecidableEq

/-- The delegations table, as the list of its rows in insertion order.
The schema (after migration 002) has a UNIQUE constraint on
`operation_hash`; stores reachable through the repository keep the
`operationHash` projections pairwise distinct. -/
abbrev Store := List Delegation

/-- Identity keys (the `operation_hash` column) of a store. -/
def storeKeys (st : Store) : List String := st.map (·.operationHash)

/-- Uniqueness of the `operation_hash` column (the UNIQUE constraint). -/
def KeysUnique (st : Store) : Prop := (storeKeys st).Nodup

/-- All rows of a store whose `operation_hash` equals `h`. -/
def rowsFor (st : Store) (h : String) : List Delegation :=
  st.filter (fun d => d.operationHash = h)

/-- The amounts of all rows with identity `h`. -/
def amountsFor (st : Store) (h : String) : List String :=
  (rowsFor st h).map (·.amount)

/-- One `INSERT ... ON CONFLICT (operation_hash) DO UPDATE SET
timestamp, amount, block_hash, delegator, level` statement applied to a
store. When a row with the same `operation_hash` exists, its mutable
fields are overwritten (never `id`, `operation_hash`, `created_at`);
otherwise the row is appended. -/
def upsertOne (st : Store) (d : Delegation) : Store :=
  if st.any (fun r => r.operationHash = d.operationHash) then
    st.map (fun r =>
      if r.operationHash = d.operationHash then
        { r with timestamp := d.timestamp, amount := d.amount,
                 blockHash := d.blockHash, delegator := d.delegator,
                 level := d.level }
      else r)
  else st ++ [d]

/-- Per-row preprocessing done by `Repository.Save` and
`Repository.SaveBatch`: an empty `ID` is replaced by a fresh UUID and a
zero `CreatedAt` by the current time. -/
def prepareDelegation (freshId : String) (now : Int) (d : Delegation) :
    Delegation :=
  let d1 := if d.id = "" then { d with id := freshId } else d
  if d1.createdAt = 0 then { d1 with createdAt := now } else d1

/-- The batch loop preprocessing of `SaveBatch`: the i-th queued row is
prepared with the i-th fresh UUID. -/
def prepareBatch (freshIds : Nat → String) (now : Int) :
    Nat → List Delegation → List Delegation
  | _, [] => []
  | i, d :: rest =>
      prepareDelegation (freshIds i) now d :: prepareBatch freshIds now (i + 1) rest

/-- The log record `Saved batch of delegations` emitted by `SaveBatch`:
`attempted` is the batch length, `saved` counts statements that executed
without a unique-violation error, `duplicates` counts statements skipped
on a 23505 error. With the `ON CONFLICT (operation_hash) DO UPDATE`
statement an identity conflict executes the UPDATE arm instead of
raising 23505, so every statement executes. -/
structure BatchLog where
  attempted : Nat
  saved : Nat
  duplicates : Nat
  deriving Repr, DecidableEq

/-- The outcome of `Repository.SaveBatch`: the store after the
transaction, the value returned to the caller (the Go `error`, `none`
meaning `nil`), and the log record (absent for an empty batch, which
returns before logging). -/
structure SaveBatchResult where
  store : Store
  ret : Option String
  logged : Option BatchLog
  deriving Repr, DecidableEq

/-- Model of `Repository.SaveBatch`: prepares each row, queues one upsert
statement per row inside a transaction, executes them in order, and
returns `nil` to its caller. Identity conflicts take the `DO UPDATE`
arm of the statement, so no statement fails and the whole batch
commits. -/
def saveBatch (freshIds : Nat → String) (now : Int) (st : Store)
    (delegations : List Delegation) : SaveBatchResult :=
  if delegations.isEmpty then
    { store := st, ret := none, logged := none }
  else
    let prepared := prepareBatch freshIds now 0 delegations
    { store := prepared.foldl upsertOne st
      ret := none
      logged := some { attempted := delegations.length,
                       saved := delegations.length, duplicates := 0 } }

/-- Decimal value of one digit character. -/
def charDigit? (c : Char) : Option Nat :=
  if c = '0' then some 0 else if c = '1' then some 1 else if c = '2' then some 2
  else if c = '3' then some 3 else if c = '4' then some 4 else if c = '5' then some 5
  else if c = '6' then some 6 else if c = '7' then some 7 else if c = '8' then some 8
  else if c = '9' then some 9 else none

/-- Accumulating decimal parse of a digit string. -/
def digitsToNat : Nat → List Char → Option Nat
  | acc, [] => some acc
  | acc, c :: cs =>
      match charDigit? c with
      | none => none
      | some d => digitsToNat (acc * 10 + d) cs

/-- Parsing a decimal string (with optional leading minus) as an
integer; `none` on any non-numeric text. -/
def parseIntString (s : String) : Option Int :=
  match s.data with
  | [] => none
  | '-' :: cs =>
      if cs.isEmpty then none
      else (digitsToNat 0 cs).map (fun n => -(n : Int))
  | cs => (digitsToNat 0 cs).map (fun n => (n : Int))

/-- The digit character of a value below ten. -/
def natDigitChar (n : Nat) : Char :=
  if n = 0 then '0' else if n = 1 then '1' else if n = 2 then '2'
  else if n = 3 then '3' else if n = 4 then '4' else if n = 5 then '5'
  else if n = 6 then '6' else if n = 7 then '7' else if n = 8 then '8' else '9'

/-- Decimal digit list of a natural number; the fuel argument bounds
the digit count and `n + 1` always suffices. -/
def natToDigits : Nat → Nat → List Char
  | 0, _ => []
  | fuel + 1, n =>
      if n < 10 then [natDigitChar n]
      else natToDigits fuel (n / 10) ++ [natDigitChar (n % 10)]

/-- Decimal rendering of a natural number. -/
def formatNat (n : Nat) : String := ⟨natToDigits (n + 1) n⟩

/-- SQL `CAST(level AS BIGINT)` applied to one `level` cell. -/
def castLevel (s : String) : Option Int := parseIntString s

/-- Model of `Repository.GetLastIndexedLevel`: `SELECT MAX(CAST(level AS
BIGINT)) FROM delegations`, with a NULL maximum (empty table) read as
0. The cast fails the query if some stored level is not numeric. -/
def getLastIndexedLevel (st : Store) : Except String Int :=
  match st.mapM (fun d => castLevel d.level) with
  | none => .error "failed to get last indexed level"
  | some [] => .ok 0
  | some (l :: ls) => .ok (ls.foldl max l)

/-- Insertion step for `ORDER BY timestamp DESC`. -/
def insertByTimestampDesc (d : Delegation) : List Delegation → List Delegation
  | [] => [d]
  | x :: xs =>
      if x.timestamp < d.timestamp then d :: x :: xs
      else x :: insertByTimestampDesc d xs

/-- Model of `Repository.FindAll` with no year filter: all rows, ordered by
timestamp descending. -/
def findAll (st : Store) : List Delegation :=
  st.foldr insertByTimestampDesc []

/-- The singleton `indexing_metadata` row (`last_indexed_level`,
`last_indexed_timestamp`). -/
structure IndexingMetadata where
  lastIndexedLevel : Int
  lastIndexedTimestamp : Option Int
  deriving Repr, DecidableEq

/-- The row inserted by the migrations: `(id, last_indexed_level,
last_indexed_timestamp) VALUES (1, 0, NULL)`. -/
def initialIndexingMetadata : IndexingMetadata :=
  { lastIndexedLevel := 0, lastIndexedTimestamp := none }

/-- Model of `RunMigrations` on the metadata table: `INSERT ... ON CONFLICT (id)
DO NOTHING` — the singleton row is created with zero values when
absent and left untouched when present. -/
def runMigrationsMetadata (existing : Option IndexingMetadata) :
    IndexingMetadata :=
  match existing with
  | some m => m
  | none => initialIndexingMetadata

/-- The amount supplied last in a batch for a given identity (the value
the final `DO UPDATE` for that identity writes). -/
def lastAmountFor : List Delegation → String → Option String
  | [], _ => none
  | d :: rest, h =>
      match lastAmountFor rest h with
      | some a => some a
      | none => if d.operationHash = h then some d.amount else none

/-- Concrete batch for the C1 witness: two events with equal identity
`op1` and different amounts. -/
def c1Event1 : Delegation :=
  { id := "", timestamp := 10, amount := "5", delegator := "tz1a",
    level := "1000", blockHash := "B1", operationHash := "op1", createdAt := 0 }

/-- Second event of the C1 witness batch: same identity, newer amount. -/
def c1Event2 : Delegation :=
  { id := "", timestamp := 11, amount := "7", delegator := "tz1a",
    level := "1001", blockHash := "B2", operationHash := "op1", createdAt := 0 }

/-- The TzKT `DelegationResponse` struct (internal/infrastructure/tzkt
/types.go). The `Amount` and `Level` JSON fields are declared `int64`
in the source; decoding into them is modelled by `decodeInt64`. -/
structure DelegationResponse where
  id : Int
  level : Int
  timestamp : Int
  block : String
  hash : String
  senderAddress : String
  amount : Int
  status : String
  deriving Repr, DecidableEq

/-- Smallest value of Go `int64`. -/
def int64Lo : Int := -(2 ^ 63)

/-- Largest value of Go `int64`. -/
def int64Hi : Int := 2 ^ 63 - 1

/-- Decoding a JSON number into a Go `int64` struct field:
`json.Unmarshal` fails with an overflow error when the number does not
fit in 64 bits. -/
def decodeInt64 (n : Int) : Option Int :=
  if int64Lo ≤ n ∧ n ≤ int64Hi then some n else none

/-- Go `strconv.FormatInt(n, 10)`: exact decimal rendering with a
leading minus for negative values. -/
def formatInt (n : Int) : String :=
  if n < 0 then "-" ++ formatNat (-n).toNat else formatNat n.toNat

/-- The amount path of the ingestion pipeline, from the source's
numeric amount to the stored string: the JSON body is decoded into the
`int64` field `DelegationResponse.Amount`, and
`convertToDomainDelegations` renders it with `strconv.FormatInt`.
Returns `none` when the source amount cannot be decoded at all. -/
def ingestAmount (sourceAmount : Int) : Option String :=
  (decodeInt64 sourceAmount).map formatInt

/-- Model of `Service.convertToDomainDelegations`: keeps only events with status
`applied`, assigning each kept event a fresh UUID and the current time
as `CreatedAt`; `Amount` and `Level` are rendered with
`strconv.FormatInt`. The counter argument indexes the fresh UUIDs. -/
def convertToDomainDelegations (freshIds : Nat → String) (now : Int) :
    Nat → List DelegationResponse → List Delegation
  | _, [] => []
  | k, d :: rest =>
      if d.status = "applied" then
        { id := freshIds k, timestamp := d.timestamp,
          amount := formatInt d.amount, delegator := d.senderAddress,
          level := formatInt d.level, blockHash := d.block,
          operationHash := d.hash, createdAt := now } ::
          convertToDomainDelegations freshIds now (k + 1) rest
      else convertToDomainDelegations freshIds now k rest

/-- The retry-relevant configuration that `tzkt.NewClient` installs on
its resty HTTP client (`SetRetryCount`, `SetRetryWaitTime`,
`SetRetryMaxWaitTime`); durations in the same unit as `retryDelay`. -/
structure ClientConfig where
  maxRetries : Nat
  retryWaitTime : Nat
  retryMaxWaitTime : Nat
  deriving Repr, DecidableEq

/-- Model of `tzkt.NewClient`: retry count `maxRetries`, fixed wait
`retryDelay`, maximum wait `retryDelay * 3`. -/
def newClient (maxRetries : Nat) (retryDelay : Nat) : ClientConfig :=
  { maxRetries := maxRetries, retryWaitTime := retryDelay,
    retryMaxWaitTime := retryDelay * 3 }

/-- One HTTP response: status code and (already parsed) JSON body. -/
structure HttpResponse where
  status : Nat
  body : List DelegationResponse
  deriving Repr, DecidableEq

/-- Outcome of one HTTP attempt: transport error or a response. -/
abbrev AttemptResult := Except String HttpResponse

/-- The retry condition `NewClient` adds:
`err != nil || r.StatusCode() >= 500 || r.StatusCode() == 429`. -/
def retryCondition : AttemptResult → Bool
  | .error _ => true
  | .ok r => decide (500 ≤ r.status) || decide (r.status = 429)

/-- The resty retry loop: starting at attempt `i` with `rem` retries
remaining, performs attempts until the retry condition fails or the
retries are exhausted; returns the final attempt's result and the
total number of attempts performed. -/
def restyAttempts (att : Nat → AttemptResult) : Nat → Nat → AttemptResult × Nat
  | i, 0 => (att i, i + 1)
  | i, rem + 1 =>
      let r := att i
      if retryCondition r then restyAttempts att (i + 1) rem else (r, i + 1)

/-- Executing one request on the client: initial attempt plus up to
`maxRetries` retries. -/
def restyExecute (cfg : ClientConfig) (att : Nat → AttemptResult) :
    AttemptResult × Nat :=
  restyAttempts att 0 cfg.maxRetries

/-- Errors `Client.GetDelegations` returns, with the data each carries. -/
inductive ClientError where
  | transport (e : String)
  | unexpectedStatus (code : Nat)
  deriving Repr, DecidableEq

/-- Model of `Client.GetDelegations` (response handling): executes the request
with the retry policy; a transport error or a final non-200 status
becomes an error, a 200 response yields the parsed body. Also returns
the number of attempts performed. -/
def getDelegations (cfg : ClientConfig) (att : Nat → AttemptResult) :
    Except ClientError (List DelegationResponse) × Nat :=
  let r := restyExecute cfg att
  match r.1 with
  | .error e => (.error (.transport e), r.2)
  | .ok resp =>
      if resp.status ≠ 200 then (.error (.unexpectedStatus resp.status), r.2)
      else (.ok resp.body, r.2)

/-- The query parameters a call builds (the subset of
`tzkt.QueryParams` the service uses). -/
structure QueryParams where
  limit : Nat
  offset : Nat
  levelGte : Option Int
  timestampGte : Option Int
  sort : List String
  deriving Repr, DecidableEq

/-- The parameters `Client.GetDelegationsSince` builds: timestamp lower
bound, ascending sort by the internal id. -/
def getDelegationsSinceParams (timestamp : Int) (limit : Nat) : QueryParams :=
  { limit := limit, offset := 0, levelGte := none,
    timestampGte := some timestamp, sort := ["id.asc"] }

/-- The parameters `Client.GetDelegationsFromLevel` builds: level lower
bound, ascending sort by the internal id. -/
def getDelegationsFromLevelParams (level : Int) (limit : Nat) : QueryParams :=
  { limit := limit, offset := 0, levelGte := some level,
    timestampGte := none, sort := ["id.asc"] }

/-- The producer goroutine of `Client.GetHistoricalDelegations`: pages
are requested at successive offsets (each offset advanced by the length
of the page received); every non-empty page is published; the loop
stops cleanly (terminal error `none`) at the first empty page, and
stops with the error on a fetch failure. `fuel` bounds the number of
rounds, standing for the enclosing context's deadline; exhausting it is
the context's cancellation error. Returns the published pages in order
and the terminal error sent on the error channel. -/
def getHistoricalDelegations
    (source : Nat → Except String (List DelegationResponse)) :
    Nat → Nat → List (List DelegationResponse) × Option String
  | 0, _ => ([], some "context deadline exceeded")
  | fuel + 1, offset =>
      match source offset with
      | .error e => ([], some e)
      | .ok page =>
          if page.isEmpty then ([], none)
          else
            let rest := getHistoricalDelegations source fuel (offset + page.length)
            (page :: rest.1, rest.2)

/-- One second-based hour, as in `1 * time.Hour`. -/
def hourSeconds : Int := 3600

/-- Thirty days (`30 * 24 * time.Hour`) in seconds. -/
def thirtyDaysSeconds : Int := 30 * 24 * 3600

/-- A fetch the service performs against the TzKT client:
`GetDelegationsSince(timestamp, limit)` or
`GetDelegationsFromLevel(level, limit)`. -/
inductive FetchReq where
  | since (timestamp : Int) (limit : Nat)
  | fromLevel (level : Int) (limit : Nat)
  deriving Repr, DecidableEq

/-- A repository operation performed by a service code path, in
program order. -/
inductive RepoOp where
  | getLastIndexedLevel
  | saveBatch (size : Nat)
  | updateIndexingMetadata (level : Int) (timestamp : Int)
  | findAll
  deriving Repr, DecidableEq

/-- Whether a repository operation writes the `indexing_metadata` row. -/
def RepoOp.isMetadataUpdate : RepoOp → Bool
  | .updateIndexingMetadata _ _ => true
  | _ => false

/-- Environment of one poll tick: the current time, the UUID supply,
the client's answer to each fetch, and an injected `SaveBatch` failure
(`none` when the database is healthy). -/
structure PollEnv where
  now : Int
  freshIds : Nat → String
  fetch : FetchReq → Except String (List DelegationResponse)
  saveBatchErr : Option String

/-- The repository `SaveBatch` call as the service sees it: an injected
database failure leaves the store unchanged and surfaces the error;
otherwise the batch is upserted and `nil` is returned. -/
def repoSaveBatch (env : PollEnv) (st : Store) (ds : List Delegation) :
    Except String Store :=
  match env.saveBatchErr with
  | some e => .error e
  | none => .ok (saveBatch env.freshIds env.now st ds).store

/-- Result of one `Service.pollOnce` tick: the store afterwards, the
client fetches made, the repository operations performed, and whether
some fetch or store operation failed during the tick. -/
structure PollTickResult where
  store : Store
  fetches : List FetchReq
  repoOps : List RepoOp
  failed : Bool

/-- Model of `Service.pollOnce`: reads `GetLastIndexedLevel`; when it is zero,
fetches from the 30-days-ago timestamp with page size 1000; when
non-zero, fetches from `lastLevel + 1` with page size 100; converts and
upserts any events received. A fetch or store failure is logged and the
tick ends; nothing is thrown past the tick. -/
def pollOnce (env : PollEnv) (st : Store) : PollTickResult :=
  match getLastIndexedLevel st with
  | .error _ =>
      { store := st, fetches := [], repoOps := [.getLastIndexedLevel],
        failed := true }
  | .ok lastLevel =>
      if lastLevel = 0 then
        let req := FetchReq.since (env.now - thirtyDaysSeconds) 1000
        match env.fetch req with
        | .error _ =>
            { store := st, fetches := [req],
              repoOps := [.getLastIndexedLevel], failed := true }
        | .ok delegations =>
            if delegations.length > 0 then
              let dom := convertToDomainDelegations env.freshIds env.now 0 delegations
              match repoSaveBatch env st dom with
              | .error _ =>
                  { store := st, fetches := [req],
                    repoOps := [.getLastIndexedLevel, .saveBatch dom.length],
                    failed := true }
              | .ok st2 =>
                  { store := st2, fetches := [req],
                    repoOps := [.getLastIndexedLevel, .saveBatch dom.length],
                    failed := false }
            else
              { store := st, fetches := [req],
                repoOps := [.getLastIndexedLevel], failed := false }
      else
        let req := FetchReq.fromLevel (lastLevel + 1) 100
        match env.fetch req with
        | .error _ =>
            { store := st, fetches := [req],
              repoOps := [.getLastIndexedLevel], failed := true }
        | .ok delegations =>
            if delegations.length > 0 then
              let dom := convertToDomainDelegations env.freshIds env.now 0 delegations
              match repoSaveBatch env st dom with
              | .error _ =>
                  { store := st, fetches := [req],
                    repoOps := [.getLastIndexedLevel, .saveBatch dom.length],
                    failed := true }
              | .ok st2 =>
                  { store := st2, fetches := [req],
                    repoOps := [.getLastIndexedLevel, .saveBatch dom.length],
                    failed := false }
            else
              { store := st, fetches := [req],
                repoOps := [.getLastIndexedLevel], failed := false }

/-- Model of `Service.pollLoop` over a finite schedule of tick stimuli: the loop
body runs `pollOnce` for each tick signal in order, unconditionally —
there is no code path by which a tick's outcome ends the loop. Returns
the final store and the results of every tick executed. -/
def runPollTicks : List PollEnv → Store → Store × List PollTickResult
  | [], st => (st, [])
  | e :: rest, st =>
      let r := pollOnce e st
      let next := runPollTicks rest r.store
      (next.1, r :: next.2)

/-- The service lifecycle state guarded by `Service.mu`. -/
structure ServiceState where
  pollingStarted : Bool
  stopChanClosed : Bool
  tickerRunning : Bool
  deriving Repr, DecidableEq

/-- The observable steps `StartPolling` takes after passing its guard. -/
inductive EngineAction where
  | backfillRun (succeeded : Bool)
  | startTicker
  | launchPollLoop
  deriving Repr, DecidableEq

/-- The configuration flag `StartPolling` consults. -/
structure TzktConfigFlags where
  historicalIndexing : Bool
  deriving Repr, DecidableEq

/-- What `Service.StartPolling` produced: the lifecycle state on
return, the Go error returned, the actions completed synchronously
before returning, and the actions launched in a background goroutine. -/
structure StartPollingResult where
  state : ServiceState
  ret : Option String
  syncActions : List EngineAction
  backgroundActions : List EngineAction
  deriving Repr, DecidableEq

/-- Model of `Service.StartPolling`, with the run of `indexHistorical`
abstracted as `backfillResult`: fails if polling is already started;
otherwise marks polling started, runs historical indexing synchronously
when enabled (an error is only logged), starts the ticker, launches
`pollLoop` as a goroutine, and returns `nil`. -/
def startPolling (cfg : TzktConfigFlags)
    (backfillResult : Except String Unit) (s : ServiceState) :
    StartPollingResult :=
  if s.pollingStarted then
    { state := s, ret := some "polling already started",
      syncActions := [], backgroundActions := [] }
  else
    { state := { s with pollingStarted := true, tickerRunning := true }
      ret := none
      syncActions :=
        (if cfg.historicalIndexing then
          [EngineAction.backfillRun (backfillResult matches .ok _)]
        else []) ++ [EngineAction.startTicker]
      backgroundActions := [EngineAction.launchPollLoop] }

/-- Model of `Service.StopPolling`: a no-op when polling was never started;
otherwise closes the stop channel, stops the ticker and clears the
started flag. -/
def stopPolling (s : ServiceState) : ServiceState :=
  if s.pollingStarted then
    { pollingStarted := false, stopChanClosed := true, tickerRunning := false }
  else s

/-- The consumer loop of `indexHistorical`, drained of concurrency:
pages (already converted to domain events) are accumulated in the batch
buffer; whenever the buffer reaches 1000 events it is flushed; what
remains when the channel closes is the leftover buffer. Returns the
full flushes in order and the leftover buffer. -/
def consumerRun : List Delegation → List (List Delegation) →
    List (List Delegation) × List Delegation
  | buf, [] => ([], buf)
  | buf, p :: rest =>
      if 1000 ≤ (buf ++ p).length then
        let next := consumerRun [] rest
        ((buf ++ p) :: next.1, next.2)
      else consumerRun (buf ++ p) rest

/-- All `SaveBatch` flushes the consumer performs on a clean channel
close: the threshold flushes followed by one final flush of the
non-empty leftover buffer. -/
def consumerFlushes (pages : List (List Delegation)) :
    List (List Delegation) :=
  let run := consumerRun [] pages
  run.1 ++ (if run.2.isEmpty then [] else [run.2])

/-- Folding the consumer's flushes into the store, one `SaveBatch` per
flush. -/
def applyFlushes (freshIds : Nat → String) (now : Int) (st : Store)
    (batches : List (List Delegation)) : Store :=
  batches.foldl (fun s b => (saveBatch freshIds now s b).store) st

/-- Environment of one `indexHistorical` run: the current time, the
UUID supply, the parse outcome of the configured historical start date,
the page source indexed by offset (the client's `GetDelegations` at
offset), and the fuel standing for the 2-hour operation deadline. -/
structure BackfillEnv where
  now : Int
  freshIds : Nat → String
  historicalStartDate : Except String Int
  source : Nat → Except String (List DelegationResponse)
  fuel : Nat

/-- Result of `Service.indexHistorical`: the store afterwards, the
flush sizes performed, `processedCount`, the repository operations in
order, and the Go error returned. -/
structure BackfillResult where
  store : Store
  flushes : List Nat
  processed : Nat
  repoOps : List RepoOp
  ret : Option String

/-- Model of `Service.indexHistorical`: computes the resume point (latest stored
timestamp plus one second when data exists, the configured start date
otherwise), skips when the resume point is within the last hour, and
otherwise runs the producer/consumer pipeline: the producer publishes
non-empty pages and stops at the first empty page; the consumer
converts each page, flushes the buffer at the 1000 threshold, and
performs one final partial flush when the channel closes cleanly. On a
producer error the threshold flushes performed so far stand but no
final flush happens and the error is returned; on clean completion
verification reads the store once more (`FindAll`), its shortfall being
only logged. -/
def indexHistorical (env : BackfillEnv) (st : Store) : BackfillResult :=
  let existing := findAll st
  let startDateE : Except String Int :=
    if existing.length > 0 then
      .ok ((existing.foldl (fun acc d => max acc d.timestamp) 0) + 1)
    else env.historicalStartDate
  match startDateE with
  | .error _ =>
      { store := st, flushes := [], processed := 0, repoOps := [.findAll],
        ret := some "invalid historical start date" }
  | .ok startDate =>
      if env.now - startDate < hourSeconds then
        { store := st, flushes := [], processed := 0, repoOps := [.findAll],
          ret := none }
      else
        let prod := getHistoricalDelegations env.source env.fuel 0
        let pages := prod.1
        let converted := pages.map (convertToDomainDelegations env.freshIds env.now 0)
        match prod.2 with
        | some e =>
            let run := consumerRun [] converted
            { store := applyFlushes env.freshIds env.now st run.1
              flushes := run.1.map List.length
              processed := (pages.map List.length).sum
              repoOps := .findAll :: run.1.map (fun b => .saveBatch b.length)
              ret := some ("historical indexing failed: " ++ e) }
        | none =>
            let batches := consumerFlushes converted
            { store := applyFlushes env.freshIds env.now st batches
              flushes := batches.map List.length
              processed := (pages.map List.length).sum
              repoOps := (.findAll :: batches.map (fun b => .saveBatch b.length))
                ++ [.findAll]
              ret := none }

/-- A bound SQL argument of the single-row `Save`. -/
inductive SqlValue where
  | strV (v : String)
  | timeV (v : Int)
  deriving Repr, DecidableEq

/-- The INSERT statement text of `Repository.Save`, with its 8
placeholders. -/
def saveQuery : String :=
  "INSERT INTO delegations (id, timestamp, amount, delegator, level, block_hash, operation_hash, created_at) VALUES ($1, $2, $3, $4, $5, $6, $7, $8) ON CONFLICT (operation_hash) DO UPDATE SET timestamp = EXCLUDED.timestamp, amount = EXCLUDED.amount, block_hash = EXCLUDED.block_hash, delegator = EXCLUDED.delegator, level = EXCLUDED.level"

/-- Number of `$n` placeholders of a statement, counted by its dollar
signs. -/
def placeholderCount (q : String) : Nat :=
  (q.toList.filter (fun c => c = '$')).length

/-- The argument list `Repository.Save` binds in its `Exec` call, in
source order: `ID, Timestamp, Amount, Delegator, Level, BlockHash,
CreatedAt` — `OperationHash` is not among them. -/
def saveArgs (d : Delegation) : List SqlValue :=
  [.strV d.id, .timeV d.timestamp, .strV d.amount, .strV d.delegator,
   .strV d.level, .strV d.blockHash, .timeV d.createdAt]

/-- The error class pgx raises when a statement's bound arguments do
not match its placeholders. -/
inductive PgxError where
  | argCountMismatch (expected got : Nat)
  deriving Repr, DecidableEq

/-- Executing a statement through pgx: fails up front when the number
of bound arguments differs from the number of placeholders. -/
def pgxExec (placeholders : Nat) (args : List SqlValue) :
    Except PgxError Unit :=
  if args.length = placeholders then .ok ()
  else .error (.argCountMismatch placeholders args.length)

/-- Model of `Repository.Save`: prepares the row (UUID and `CreatedAt`
defaults), then executes `saveQuery` with the bound arguments of
`saveArgs`. -/
def save (freshId : String) (now : Int) (d : Delegation) :
    Except PgxError Unit :=
  pgxExec (placeholderCount saveQuery) (saveArgs (prepareDelegation freshId now d))

/-- Pre-existing row for the C3 counterexample, identity `op1`. -/
def c3Existing : Delegation :=
  { id := "i0", timestamp := 10, amount := "5", delegator := "tz1a",
    level := "1000", blockHash := "B1", operationHash := "op1", createdAt := 1 }

/-- C3 batch whose only event conflicts with the existing `op1` row. -/
def c3ConflictBatch : List Delegation :=
  [{ id := "", timestamp := 20, amount := "7", delegator := "tz1a",
     level := "1002", blockHash := "B2", operationHash := "op1", createdAt := 0 }]

/-- C3 batch whose only event has the fresh identity `op2`. -/
def c3FreshBatch : List Delegation :=
  [{ id := "", timestamp := 20, amount := "7", delegator := "tz1a",
     level := "1002", blockHash := "B2", operationHash := "op2", createdAt := 0 }]

/-- The idle lifecycle state (fresh service, polling never started). -/
def idleServiceState : ServiceState :=
  { pollingStarted := false, stopChanClosed := false, tickerRunning := false }

/-- Concrete applied source event for the C2 counterexample tick. -/
def c2Event : DelegationResponse :=
  { id := 1, level := 1000, timestamp := 100, block := "B1", hash := "opX",
    senderAddress := "tz1a", amount := 1, status := "applied" }

/-- Environment of the C2 counterexample tick: healthy database, the
client returning one applied event. -/
def c2Env : PollEnv :=
  { now := 1000000, freshIds := fun _ => "u",
    fetch := fun _ => .ok [c2Event], saveBatchErr := none }

/-- First seeded source event of the C4 scenario: sequence 1000. -/
def c4Event1 : DelegationResponse :=
  { id := 1, level := 1000, timestamp := 100, block := "B1", hash := "op1000",
    senderAddress := "tz1a", amount := 1000000, status := "applied" }

/-- Second seeded source event of the C4 scenario: sequence 1001. -/
def c4Event2 : DelegationResponse :=
  { id := 2, level := 1001, timestamp := 200, block := "B2", hash := "op1001",
    senderAddress := "tz1b", amount := 2000000, status := "applied" }

/-- Environment of the C4 scenario tick: healthy database, the client
answering every fetch with the two seeded events. -/
def c4Env : PollEnv :=
  { now := 1000000000, freshIds := fun _ => "u",
    fetch := fun _ => .ok [c4Event1, c4Event2], saveBatchErr := none }

/-- A store whose highest stored sequence is 5, for the non-zero
cursor branch. -/
def c4NonEmptyStore : Store :=
  [{ id := "i1", timestamp := 50, amount := "1", delegator := "tz1a",
     level := "5", blockHash := "B0", operationHash := "op5", createdAt := 1 }]

/-- Concrete attempt sequences for the C6 witness. -/
def c6AttNotFound : Nat → AttemptResult := fun _ => .ok { status := 404, body := [] }

/-- A source that fails transport on every attempt. -/
def c6AttDown : Nat → AttemptResult := fun _ => .error "connection refused"

/-- Two 500 responses, then 200 with an empty body. -/
def c6AttScenario : Nat → AttemptResult := fun i =>
  if i = 0 then .ok { status := 500, body := [] }
  else if i = 1 then .ok { status := 500, body := [] }
  else .ok { status := 200, body := [] }

/-- The C5 scenario page source: pages at offsets 0, 500 and 1000,
nothing afterwards. -/
def c5Source (p1 p2 p3 : List DelegationResponse) :
    Nat → Except String (List DelegationResponse) :=
  fun off =>
    if off = 0 then .ok p1
    else if off = 500 then .ok p2
    else if off = 1000 then .ok p3
    else .ok []

/-- The C5 scenario backfill environment: fresh store path (no resume
data), configured start date long in the past, pages of 500. -/
def c5Env (p1 p2 p3 : List DelegationResponse) : BackfillEnv :=
  { now := 1000000000, freshIds := fun _ => "u",
    historicalStartDate := .ok 0, source := c5Source p1 p2 p3, fuel := 4 }

/-- A concrete 500-event applied page for the C5 witness. -/
def c5Page : List DelegationResponse :=
  List.replicate 500
    { id := 1, level := 7, timestamp := 3, block := "B", hash := "h",
      senderAddress := "tz1a", amount := 1, status := "applied" }

theorem prepareDelegation_operationHash (fid : String) (now : Int)
    (d : Delegation) :
    (prepareDelegation fid now d).operationHash = d.operationHash := by
  unfold prepareDelegation
  dsimp only
  split <;> split <;> rfl

theorem prepareDelegation_amount (fid : String) (now : Int)
    (d : Delegation) :
    (prepareDelegation fid now d).amount = d.amount := by
  unfold prepareDelegation
  dsimp only
  split <;> split <;> rfl

theorem lastAmountFor_prepareBatch (freshIds : Nat → String) (now : Int)
    (h : String) :
    ∀ (ds : List Delegation) (i : Nat),
      lastAmountFor (prepareBatch freshIds now i ds) h = lastAmountFor ds h := by
  intro ds
  induction ds with
  | nil => intro i; rfl
  | cons d rest ih =>
      intro i
      simp only [prepareBatch, lastAmountFor, ih,
        prepareDelegation_operationHash, prepareDelegation_amount]

theorem storeKeys_upsertOne (st : Store) (d : Delegation) :
    storeKeys (upsertOne st d) =
      if st.any (fun r => r.operationHash = d.operationHash) then storeKeys st
      else storeKeys st ++ [d.operationHash] := by
  unfold upsertOne
  split
  · simp only [storeKeys, List.map_map]
    congr 1
    funext r
    by_cases hr : r.operationHash = d.operationHash <;> simp [hr]
  · simp [storeKeys]

theorem keysUnique_upsertOne {st : Store} (hu : KeysUnique st)
    (d : Delegation) : KeysUnique (upsertOne st d) := by
  unfold KeysUnique
  rw [storeKeys_upsertOne]
  by_cases hany : st.any (fun r => r.operationHash = d.operationHash)
  · simpa [hany] using hu
  · simp only [Bool.not_eq_true] at hany
    rw [hany]
    simp only [Bool.false_eq_true, if_false]
    rw [List.nodup_append]
    refine ⟨hu, List.nodup_singleton _, ?_⟩
    intro k hk1 hk2
    rcases List.mem_map.mp hk1 with ⟨r, hr, hrk⟩
    rcases List.mem_singleton.mp hk2 with rfl
    have : (st.any fun r => decide (r.operationHash = d.operationHash)) = true :=
      List.any_eq_true.mpr ⟨r, hr, by simp [hrk]⟩
    rw [hany] at this
    exact Bool.false_ne_true this

theorem filter_key_length_le_one {st : Store} (hu : KeysUnique st)
    (k : String) :
    (st.filter (fun r => r.operationHash = k)).length ≤ 1 := by
  induction st with
  | nil => simp
  | cons x xs ih =>
      rcases List.nodup_cons.mp hu with ⟨hx, hxs⟩
      by_cases hxk : x.operationHash = k
      · have hnil : xs.filter (fun r => r.operationHash = k) = [] := by
          rw [List.filter_eq_nil_iff]
          intro y hy hyk
          simp only [decide_eq_true_eq] at hyk
          exact hx (List.mem_map.mpr ⟨y, hy, by simp [hyk, hxk]⟩)
        simp [List.filter_cons, hxk, hnil]
      · simp only [List.filter_cons, hxk, decide_eq_true_eq, if_false]
        exact ih hxs

theorem amountsFor_upsertOne {st : Store} (hu : KeysUnique st)
    (d : Delegation) (k : String) :
    amountsFor (upsertOne st d) k =
      if d.operationHash = k then [d.amount] else amountsFor st k := by
  unfold upsertOne amountsFor rowsFor
  by_cases hany : (st.any fun r => decide (r.operationHash = d.operationHash)) = true
  · rw [if_pos hany]
    rw [List.filter_map]
    have hcomp :
        ((fun r : Delegation => decide (r.operationHash = k)) ∘
          (fun r : Delegation =>
            if r.operationHash = d.operationHash then
              { r with timestamp := d.timestamp, amount := d.amount,
                       blockHash := d.blockHash, delegator := d.delegator,
                       level := d.level }
            else r)) =
        fun r : Delegation => decide (r.operationHash = k) := by
      funext r
      by_cases hr : r.operationHash = d.operationHash <;> simp [hr]
    rw [hcomp, List.map_map]
    by_cases hk : d.operationHash = k
    · rw [if_pos hk]
      have hle : (st.filter (fun r => r.operationHash = k)).length ≤ 1 :=
        filter_key_length_le_one hu k
      have hpos : 0 < (st.filter (fun r => r.operationHash = k)).length := by
        rcases List.any_eq_true.mp hany with ⟨r, hr, hrd⟩
        simp only [decide_eq_true_eq] at hrd
        have : r ∈ st.filter (fun r => r.operationHash = k) :=
          List.mem_filter.mpr ⟨hr, by simp [hrd, hk]⟩
        exact List.length_pos_of_mem this
      have h1 : (st.filter (fun r => r.operationHash = k)).length = 1 :=
        le_antisymm hle hpos
      rcases List.length_eq_one.mp h1 with ⟨r, hr⟩
      rw [hr]
      have hrk : r.operationHash = k := by
        have : r ∈ st.filter (fun r => r.operationHash = k) := by
          rw [hr]; exact List.mem_singleton_self r
        simpa using (List.mem_filter.mp this).2
      simp [Function.comp, hrk, hk]
    · rw [if_neg hk]
      apply List.map_congr_left
      intro r hr
      have hrk : r.operationHash = k := by
        simpa using (List.mem_filter.mp hr).2
      have hrd : ¬ r.operationHash = d.operationHash := by
        intro h
        exact hk (h ▸ hrk)
      simp [Function.comp, hrd]
  · rw [if_neg hany]
    rw [List.filter_append, List.map_append]
    by_cases hk : d.operationHash = k
    · rw [if_pos hk]
      have hnil : st.filter (fun r => r.operationHash = k) = [] := by
        rw [List.filter_eq_nil_iff]
        intro y hy hyk
        simp only [decide_eq_true_eq] at hyk
        exact hany (List.any_eq_true.mpr ⟨y, hy, by simp [hyk, hk]⟩)
      simp [hnil, hk]
    · simp [hk]

theorem keysUnique_foldl (ds : List Delegation) :
    ∀ st : Store, KeysUnique st → KeysUnique (ds.foldl upsertOne st) := by
  induction ds with
  | nil => intro st hu; exact hu
  | cons d rest ih =>
      intro st hu
      exact ih _ (keysUnique_upsertOne hu d)

theorem amountsFor_foldl (k : String) (ds : List Delegation) :
    ∀ st : Store, KeysUnique st →
      amountsFor (ds.foldl upsertOne st) k =
        match lastAmountFor ds k with
        | some a => [a]
        | none => amountsFor st k := by
  induction ds with
  | nil => intro st _; rfl
  | cons d rest ih =>
      intro st hu
      rw [List.foldl_cons, ih _ (keysUnique_upsertOne hu d)]
      simp only [lastAmountFor]
      cases hrest : lastAmountFor rest k with
      | some a => rfl
      | none =>
          rw [amountsFor_upsertOne hu d k]
          by_cases hk : d.operationHash = k <;> simp [hk]

theorem lastAmountFor_isSome {ds : List Delegation} {h : String}
    (hh : ∃ d ∈ ds, d.operationHash = h) :
    (lastAmountFor ds h).isSome := by
  induction ds with
  | nil => rcases hh with ⟨d, hd, _⟩; cases hd
  | cons d rest ih =>
      simp only [lastAmountFor]
      cases hrest : lastAmountFor rest h with
      | some a => rfl
      | none =>
          rcases hh with ⟨e, he, heh⟩
          rcases List.mem_cons.mp he with rfl | hmem
          · simp [heh]
          · have := ih ⟨e, hmem, heh⟩
            rw [hrest] at this
            cases this

/-- C1. For any two events with equal identity (`operation_hash`) but
different amounts, after `Repository.SaveBatch` the store contains
exactly one row for that identity and that row carries the amount
supplied last for it; `operation_hash` is the sole deduplication key
(row uniqueness on it is preserved for every batch, conflicting or
not). Stated generally: for any well-keyed store and any batch, for
every identity occurring in the batch the resulting store has exactly
one row with that identity, whose amount is `lastAmountFor` of the
batch — the latest amount supplied. -/
theorem saveBatch_identity_dedup (freshIds : Nat → String) (now : Int)
    (st : Store) (ds : List Delegation) (h : String)
    (hu : KeysUnique st) (hh : ∃ d ∈ ds, d.operationHash = h) :
    KeysUnique (saveBatch freshIds now st ds).store ∧
    (rowsFor (saveBatch freshIds now st ds).store h).length = 1 ∧
    ∀ a, lastAmountFor ds h = some a →
      amountsFor (saveBatch freshIds now st ds).store h = [a] := by
  have hne : ds ≠ [] := by
    rcases hh with ⟨d, hd, _⟩
    intro hnil
    rw [hnil] at hd
    cases hd
  have hstore : (saveBatch freshIds now st ds).store =
      (prepareBatch freshIds now 0 ds).foldl upsertOne st := by
    unfold saveBatch
    rw [if_neg (by simp [hne])]
  refine ⟨?_, ?_, ?_⟩
  · rw [hstore]
    exact keysUnique_foldl _ st hu
  · rw [hstore]
    have hsome := lastAmountFor_isSome hh
    rcases Option.isSome_iff_exists.mp hsome with ⟨a, ha⟩
    have := amountsFor_foldl h (prepareBatch freshIds now 0 ds) st hu
    rw [lastAmountFor_prepareBatch freshIds now h ds 0, ha] at this
    have hlen : (amountsFor ((prepareBatch freshIds now 0 ds).foldl upsertOne st) h).length = 1 := by
      rw [this]
      rfl
    unfold amountsFor at hlen
    rwa [List.length_map] at hlen
  · intro a ha
    rw [hstore]
    have := amountsFor_foldl h (prepareBatch freshIds now 0 ds) st hu
    rw [lastAmountFor_prepareBatch freshIds now h ds 0, ha] at this
    exact this

/-- Witness for C1: on the empty store and the batch
`[c1Event1, c1Event2]` (equal identity, amounts 5 then 7), the store
ends with exactly one `op1` row whose amount is the latest one, 7. -/
theorem saveBatch_identity_dedup_witness :
    KeysUnique (saveBatch (fun _ => "u") 0 [] [c1Event1, c1Event2]).store ∧
    (rowsFor (saveBatch (fun _ => "u") 0 [] [c1Event1, c1Event2]).store "op1").length = 1 ∧
    ∀ a, lastAmountFor [c1Event1, c1Event2] "op1" = some a →
      amountsFor (saveBatch (fun _ => "u") 0 [] [c1Event1, c1Event2]).store "op1" = [a] :=
  saveBatch_identity_dedup (fun _ => "u") 0 [] [c1Event1, c1Event2] "op1"
    (by simp [KeysUnique, storeKeys])
    ⟨c1Event1, by simp, by simp [c1Event1]⟩

/-- C10. The single-row `Repository.Save` can never succeed: its
statement declares 8 placeholders but its `Exec` call binds only 7
arguments (`OperationHash` is omitted), so pgx rejects every
execution with an argument-count error. -/
theorem save_arg_count_mismatch (freshId : String) (now : Int)
    (d : Delegation) :
    placeholderCount saveQuery = 8 ∧
    (saveArgs (prepareDelegation freshId now d)).length = 7 ∧
    save freshId now d = .error (.argCountMismatch 8 7) := by
  refine ⟨by decide, rfl, ?_⟩
  unfold save pgxExec
  rw [show placeholderCount saveQuery = 8 from by decide]
  rfl

/-- Counterexample to C3. On the same one-row store, a batch whose
event is conflict-resolved (zero rows inserted) and a batch whose event
is newly inserted (zero conflicts) give `SaveBatch` callers exactly the
same returned value (`nil`) and even the same logged counts — the
insert/conflict split (visible in the row-count change: 1 → 1 versus
1 → 2) is not returned to the caller, refuting the claim that
`SaveBatch` returns counts of newly inserted versus conflict-resolved
rows to its caller. -/
theorem saveBatch_counts_not_returned_cx :
    (saveBatch (fun _ => "u") 30 [c3Existing] c3ConflictBatch).ret =
      (saveBatch (fun _ => "u") 30 [c3Existing] c3FreshBatch).ret ∧
    (saveBatch (fun _ => "u") 30 [c3Existing] c3ConflictBatch).logged =
      (saveBatch (fun _ => "u") 30 [c3Existing] c3FreshBatch).logged ∧
    (saveBatch (fun _ => "u") 30 [c3Existing] c3ConflictBatch).store.length = 1 ∧
    (saveBatch (fun _ => "u") 30 [c3Existing] c3FreshBatch).store.length = 2 := by
  decide

/-- C3 amended: `SaveBatch` computes and logs counts (attempted,
saved, duplicates) for observability but returns only an error value to
its caller, and that value is `nil` for every batch — in particular an
event conflicting on an existing identity never produces an error,
because the `ON CONFLICT (operation_hash) DO UPDATE` arm resolves the
conflict inside the statement. -/
theorem saveBatch_error_contract :
    (∀ (freshIds : Nat → String) (now : Int) (st : Store)
       (ds : List Delegation), (saveBatch freshIds now st ds).ret = none) ∧
    (∀ (freshIds : Nat → String) (now : Int) (st : Store)
       (d : Delegation) (ds : List Delegation),
       (saveBatch freshIds now st (d :: ds)).logged =
         some { attempted := (d :: ds).length, saved := (d :: ds).length,
                duplicates := 0 }) := by
  constructor
  · intro freshIds now st ds
    unfold saveBatch
    split <;> rfl
  · intro freshIds now st d ds
    unfold saveBatch
    rw [if_neg (by simp)]

/-- Counterexample to C9. The ingestion path decodes the source amount
into the `int64` field `DelegationResponse.Amount` before it is ever
rendered for storage; an amount one past the 64-bit range fails that
decoding, so it cannot be ingested or stored at all — refuting the
claim that amounts are never parsed into a fixed-width integer on the
ingestion path and that amounts exceeding the 64-bit range are ingested
exactly. -/
theorem amount_int64_overflow_cx :
    decodeInt64 (2 ^ 64) = none ∧ ingestAmount (2 ^ 64) = none ∧
    decodeInt64 (2 ^ 63) = none ∧ ingestAmount (2 ^ 63) = none := by
  refine ⟨?_, ?_, ?_, ?_⟩ <;>
    simp [decodeInt64, ingestAmount, int64Lo, int64Hi]

/-- C9 amended: the stored amount is the decimal rendering
(`strconv.FormatInt`) of the source amount decoded as a Go `int64`;
within the 64-bit range the amount round-trips exactly, but outside it
ingestion fails, because `DelegationResponse.Amount` is a fixed-width
integer. The conversion itself stores `FormatInt(Amount, 10)` for every
`applied` event. -/
theorem amount_ingestion_int64_exact :
    (∀ n : Int, int64Lo ≤ n → n ≤ int64Hi →
       decodeInt64 n = some n ∧ ingestAmount n = some (formatInt n)) ∧
    (∀ n : Int, int64Hi < n → ingestAmount n = none) ∧
    (∀ n : Int, n < int64Lo → ingestAmount n = none) ∧
    (∀ (freshIds : Nat → String) (now : Int) (k : Nat)
       (d : DelegationResponse) (rest : List DelegationResponse),
       d.status = "applied" →
       (convertToDomainDelegations freshIds now k (d :: rest)).head?.map
           (·.amount) = some (formatInt d.amount)) := by
  refine ⟨?_, ?_, ?_, ?_⟩
  · intro n h1 h2
    simp [decodeInt64, ingestAmount, h1, h2]
  · intro n h
    have : ¬ n ≤ int64Hi := by omega
    simp [decodeInt64, ingestAmount, this]
  · intro n h
    have : ¬ int64Lo ≤ n := by omega
    simp [decodeInt64, ingestAmount, this]
  · intro freshIds now k d rest h
    simp [convertToDomainDelegations, h]

/-- Witness for the amended C9: the in-range amount 1000000 decodes and
is stored as its exact decimal string, and a conversion of a concrete
applied event stores the rendering of its `int64` amount. -/
theorem amount_ingestion_int64_exact_witness :
    (decodeInt64 1000000 = some 1000000 ∧
     ingestAmount 1000000 = some (formatInt 1000000)) ∧
    ingestAmount (2 ^ 63) = none ∧
    ingestAmount (-(2 ^ 63) - 1) = none ∧
    (convertToDomainDelegations (fun _ => "u") 0 0
        [{ id := 1, level := 1000, timestamp := 5, block := "B1",
           hash := "op1", senderAddress := "tz1a", amount := 1000000,
           status := "applied" }]).head?.map (·.amount) =
      some (formatInt 1000000) :=
  ⟨amount_ingestion_int64_exact.1 1000000 (by decide) (by decide),
   amount_ingestion_int64_exact.2.1 (2 ^ 63) (by decide),
   amount_ingestion_int64_exact.2.2.1 (-(2 ^ 63) - 1) (by decide),
   amount_ingestion_int64_exact.2.2.2 (fun _ => "u") 0 0
     { id := 1, level := 1000, timestamp := 5, block := "B1",
       hash := "op1", senderAddress := "tz1a", amount := 1000000,
       status := "applied" } [] rfl⟩

/-- Counterexample to C8. With historical indexing enabled and the
service idle, `StartPolling` completes the backfill run synchronously —
it appears among the actions finished before `StartPolling` returns,
and the only background action is the poll loop. Backfill therefore
does not run in the background after start returns, refuting the claim
that both backfill and polling do. -/
theorem startPolling_backfill_synchronous_cx :
    EngineAction.backfillRun true ∈
      (startPolling { historicalIndexing := true } (.ok ())
        idleServiceState).syncActions ∧
    (startPolling { historicalIndexing := true } (.ok ())
        idleServiceState).backgroundActions = [EngineAction.launchPollLoop] ∧
    EngineAction.backfillRun true ∉
      (startPolling { historicalIndexing := true } (.ok ())
        idleServiceState).backgroundActions := by
  decide

/-- C8 amended: `StartPolling` returns the "polling already started"
error exactly when called while polling is already running (and then
changes nothing); otherwise it returns `nil`, with the poll loop —
and only the poll loop — running in the background after it returns,
while backfill (when enabled) completes synchronously inside the call;
`StopPolling` is a no-op when polling was never started. -/
theorem startPolling_lifecycle :
    (∀ (cfg : TzktConfigFlags) (bf : Except String Unit) (s : ServiceState),
       ((startPolling cfg bf s).ret).isSome = s.pollingStarted) ∧
    (∀ (cfg : TzktConfigFlags) (bf : Except String Unit) (s : ServiceState),
       s.pollingStarted = true →
       (startPolling cfg bf s).ret = some "polling already started" ∧
       (startPolling cfg bf s).state = s) ∧
    (∀ (cfg : TzktConfigFlags) (bf : Except String Unit) (s : ServiceState),
       s.pollingStarted = false →
       (startPolling cfg bf s).ret = none ∧
       (startPolling cfg bf s).backgroundActions = [EngineAction.launchPollLoop] ∧
       EngineAction.launchPollLoop ∉ (startPolling cfg bf s).syncActions ∧
       (cfg.historicalIndexing = true →
         EngineAction.backfillRun (bf matches .ok _) ∈
           (startPolling cfg bf s).syncActions)) ∧
    (∀ s : ServiceState, s.pollingStarted = false → stopPolling s = s) := by
  refine ⟨?_, ?_, ?_, ?_⟩
  · intro cfg bf s
    unfold startPolling
    cases h : s.pollingStarted <;> simp [h]
  · intro cfg bf s h
    unfold startPolling
    simp [h]
  · intro cfg bf s h
    unfold startPolling
    rw [if_neg (by simp [h])]
    refine ⟨rfl, rfl, ?_, ?_⟩
    · cases hc : cfg.historicalIndexing <;> simp [hc]
    · intro hc
      simp [hc]
  · intro s h
    unfold stopPolling
    rw [if_neg (by simp [h])]

/-- Witness for the amended C8, at concrete lifecycle states: starting
from idle returns `nil` with the poll loop in the background and
synchronous backfill, starting from a started state returns the
already-started error unchanged, and stopping from idle is a no-op. -/
theorem startPolling_lifecycle_witness :
    ((startPolling { historicalIndexing := true } (.ok ())
        { pollingStarted := true, stopChanClosed := false,
          tickerRunning := true }).ret = some "polling already started" ∧
     (startPolling { historicalIndexing := true } (.ok ())
        { pollingStarted := true, stopChanClosed := false,
          tickerRunning := true }).state =
       { pollingStarted := true, stopChanClosed := false,
         tickerRunning := true }) ∧
    ((startPolling { historicalIndexing := true } (.ok ())
        idleServiceState).ret = none ∧
     (startPolling { historicalIndexing := true } (.ok ())
        idleServiceState).backgroundActions = [EngineAction.launchPollLoop] ∧
     EngineAction.launchPollLoop ∉
       (startPolling { historicalIndexing := true } (.ok ())
         idleServiceState).syncActions ∧
     ((true : Bool) = true →
       EngineAction.backfillRun ((Except.ok () : Except String Unit) matches .ok _) ∈
         (startPolling { historicalIndexing := true } (.ok ())
           idleServiceState).syncActions)) ∧
    stopPolling idleServiceState = idleServiceState :=
  ⟨startPolling_lifecycle.2.1 { historicalIndexing := true } (.ok ())
      { pollingStarted := true, stopChanClosed := false, tickerRunning := true }
      rfl,
   startPolling_lifecycle.2.2.1 { historicalIndexing := true } (.ok ())
      idleServiceState rfl,
   startPolling_lifecycle.2.2.2 idleServiceState rfl⟩

/-- Counterexample to C2. A successful poll tick on the empty store
persists a batch (`SaveBatch` appears in its repository trace and the
tick does not fail), yet no `indexing_metadata` update is performed —
the Ingestion Engine does not update the cursor-state record after a
successful batch persist; it only moves an in-memory metric. -/
theorem pollTick_no_metadata_update_cx :
    (pollOnce c2Env []).failed = false ∧
    RepoOp.saveBatch 1 ∈ (pollOnce c2Env []).repoOps ∧
    (pollOnce c2Env []).repoOps.all (fun op => !op.isMetadataUpdate) = true := by
  decide

theorem saveBatch_map_all_not_meta (bs : List (List Delegation)) :
    (bs.map (fun b => RepoOp.saveBatch b.length)).all
      (fun op => !op.isMetadataUpdate) = true := by
  induction bs with
  | nil => rfl
  | cons b rest ih => simp_all [RepoOp.isMetadataUpdate]

/-- C2 amended: the `indexing_metadata` singleton is created once at
store initialization with zero values (level 0, NULL timestamp, `ON
CONFLICT DO NOTHING`), and it is never written by the Ingestion Engine:
neither a poll tick nor a backfill run ever performs an
`UpdateIndexingMetadata` repository operation — after a successful
batch persist the engine only updates in-memory metrics. -/
theorem indexing_metadata_init_and_never_updated :
    (runMigrationsMetadata none = initialIndexingMetadata ∧
     initialIndexingMetadata.lastIndexedLevel = 0 ∧
     initialIndexingMetadata.lastIndexedTimestamp = none ∧
     ∀ m, runMigrationsMetadata (some m) = m) ∧
    (∀ (env : PollEnv) (st : Store),
       (pollOnce env st).repoOps.all (fun op => !op.isMetadataUpdate) = true) ∧
    (∀ (env : BackfillEnv) (st : Store),
       (indexHistorical env st).repoOps.all
         (fun op => !op.isMetadataUpdate) = true) := by
  refine ⟨⟨rfl, rfl, rfl, fun m => rfl⟩, ?_, ?_⟩
  · intro env st
    unfold pollOnce
    repeat' split
    all_goals try simp [RepoOp.isMetadataUpdate]
    all_goals repeat' split
    all_goals simp [RepoOp.isMetadataUpdate]
  · intro env st
    unfold indexHistorical
    all_goals try
      simp [RepoOp.isMetadataUpdate, saveBatch_map_all_not_meta,
        List.all_append]
    all_goals repeat' split
    all_goals try
      simp [RepoOp.isMetadataUpdate, saveBatch_map_all_not_meta,
        List.all_append]
    all_goals intro a ha
    all_goals rcases ha with ⟨b, hb, rfl⟩ | rfl <;> rfl

/-- C4. Each poll tick first reads the highest stored sequence: when it
is zero the tick fetches from the fixed 30-day recent-window timestamp
with page size 1000, and when it is non-zero it fetches from
`highestSequence + 1` with page size 100 (both client calls sort
ascending by the source id); and in the concrete scenario — empty
store, seeded fetch of two applied events at sequences 1000 and 1001 —
after the tick the highest stored sequence is 1001 and `FindAll`
returns 2 rows. -/
theorem pollOnce_cursor_behavior :
    (∀ (env : PollEnv) (st : Store), getLastIndexedLevel st = .ok 0 →
       (pollOnce env st).fetches =
         [FetchReq.since (env.now - thirtyDaysSeconds) 1000]) ∧
    (∀ (env : PollEnv) (st : Store) (l : Int),
       getLastIndexedLevel st = .ok l → l ≠ 0 →
       (pollOnce env st).fetches = [FetchReq.fromLevel (l + 1) 100]) ∧
    (∀ (t : Int) (limit : Nat),
       (getDelegationsSinceParams t limit).sort = ["id.asc"] ∧
       (getDelegationsSinceParams t limit).timestampGte = some t) ∧
    (∀ (l : Int) (limit : Nat),
       (getDelegationsFromLevelParams l limit).sort = ["id.asc"] ∧
       (getDelegationsFromLevelParams l limit).levelGte = some l) ∧
    (getLastIndexedLevel (pollOnce c4Env []).store = .ok 1001 ∧
     (findAll (pollOnce c4Env []).store).length = 2) := by
  refine ⟨?_, ?_, fun t limit => ⟨rfl, rfl⟩, fun l limit => ⟨rfl, rfl⟩, ?_⟩
  · intro env st h
    unfold pollOnce
    rw [h]
    dsimp only
    rw [if_pos rfl]
    cases hf : env.fetch (FetchReq.since (env.now - thirtyDaysSeconds) 1000) with
    | error e => rfl
    | ok dels =>
        dsimp only
        by_cases hl : 0 < dels.length
        · rw [if_pos hl]
          cases repoSaveBatch env st
            (convertToDomainDelegations env.freshIds env.now 0 dels) <;> rfl
        · rw [if_neg hl]
  · intro env st l h hne
    unfold pollOnce
    rw [h]
    dsimp only
    rw [if_neg hne]
    cases hf : env.fetch (FetchReq.fromLevel (l + 1) 100) with
    | error e => rfl
    | ok dels =>
        dsimp only
        by_cases hl : 0 < dels.length
        · rw [if_pos hl]
          cases repoSaveBatch env st
            (convertToDomainDelegations env.freshIds env.now 0 dels) <;> rfl
        · rw [if_neg hl]
  · constructor <;> decide

/-- Witness for C4's hypothesized branches: the zero-cursor branch at
the concrete scenario environment and empty store, and the non-zero
branch at a store whose highest sequence is 5. -/
theorem pollOnce_cursor_behavior_witness :
    (pollOnce c4Env []).fetches =
      [FetchReq.since (c4Env.now - thirtyDaysSeconds) 1000] ∧
    (pollOnce c4Env c4NonEmptyStore).fetches =
      [FetchReq.fromLevel (5 + 1) 100] :=
  ⟨pollOnce_cursor_behavior.1 c4Env [] rfl,
   pollOnce_cursor_behavior.2.1 c4Env c4NonEmptyStore 5 rfl (by decide)⟩

/-- C7. Failures are isolated: (1) the poll loop executes every
scheduled tick — a tick's outcome, failed or not, never terminates the
loop (`pollOnce` returns nothing and the loop body calls it
unconditionally); (2) a failed tick leaves the store exactly as it was,
so the failure ends with that tick; (3) a backfill failure never
prevents the Engine from entering the polling loop — `StartPolling`
logs the error, still launches the poll loop in the background, and
returns `nil`. -/
theorem poll_failures_isolated :
    (∀ (envs : List PollEnv) (st : Store),
       ((runPollTicks envs st).2).length = envs.length) ∧
    (∀ (env : PollEnv) (st : Store),
       (pollOnce env st).failed = true → (pollOnce env st).store = st) ∧
    (∀ (cfg : TzktConfigFlags) (s : ServiceState) (e : String),
       s.pollingStarted = false →
       EngineAction.launchPollLoop ∈
         (startPolling cfg (.error e) s).backgroundActions ∧
       (startPolling cfg (.error e) s).ret = none) := by
  refine ⟨?_, ?_, ?_⟩
  · intro envs
    induction envs with
    | nil => intro st; rfl
    | cons e rest ih =>
        intro st
        simp [runPollTicks, ih]
  · intro env st
    unfold pollOnce
    cases hl : getLastIndexedLevel st with
    | error e => intro _; rfl
    | ok lastLevel =>
        dsimp only
        by_cases h0 : lastLevel = 0
        · rw [if_pos h0]
          cases hf : env.fetch (FetchReq.since (env.now - thirtyDaysSeconds) 1000) with
          | error e => intro _; rfl
          | ok dels =>
              dsimp only
              by_cases hlen : dels.length > 0
              · rw [if_pos hlen]
                cases repoSaveBatch env st
                    (convertToDomainDelegations env.freshIds env.now 0 dels) with
                | error e => intro _; rfl
                | ok st2 => intro hfail; exact absurd hfail (by simp)
              · rw [if_neg hlen]
                intro _; rfl
        · rw [if_neg h0]
          cases hf : env.fetch (FetchReq.fromLevel (lastLevel + 1) 100) with
          | error e => intro _; rfl
          | ok dels =>
              dsimp only
              by_cases hlen : dels.length > 0
              · rw [if_pos hlen]
                cases repoSaveBatch env st
                    (convertToDomainDelegations env.freshIds env.now 0 dels) with
                | error e => intro _; rfl
                | ok st2 => intro hfail; exact absurd hfail (by simp)
              · rw [if_neg hlen]
                intro _; rfl
  · intro cfg s e h
    unfold startPolling
    rw [if_neg (by simp [h])]
    simp

/-- Witness for C7's hypothesized parts: a concretely failing tick (the
client erroring on every fetch) leaves the empty store unchanged, and a
start from idle with a failing backfill still launches the poll loop
and returns `nil`. -/
theorem poll_failures_isolated_witness :
    (pollOnce { now := 0, freshIds := fun _ => "u",
                fetch := fun _ => .error "boom",
                saveBatchErr := none } []).store = [] ∧
    (EngineAction.launchPollLoop ∈
       (startPolling { historicalIndexing := true } (.error "backfill broke")
         idleServiceState).backgroundActions ∧
     (startPolling { historicalIndexing := true } (.error "backfill broke")
       idleServiceState).ret = none) :=
  ⟨poll_failures_isolated.2.1
     { now := 0, freshIds := fun _ => "u", fetch := fun _ => .error "boom",
       saveBatchErr := none } [] rfl,
   poll_failures_isolated.2.2 { historicalIndexing := true }
     idleServiceState "backfill broke" rfl⟩

theorem restyAttempts_stop (att : Nat → AttemptResult) (i : Nat)
    (h : retryCondition (att i) = false) :
    ∀ rem, restyAttempts att i rem = (att i, i + 1) := by
  intro rem
  cases rem with
  | zero => rfl
  | succ n => simp [restyAttempts, h]

theorem restyAttempts_all_transient (att : Nat → AttemptResult)
    (h : ∀ j, retryCondition (att j) = true) :
    ∀ rem i, restyAttempts att i rem = (att (i + rem), i + rem + 1) := by
  intro rem
  induction rem with
  | zero => intro i; simp [restyAttempts]
  | succ n ih =>
      intro i
      simp only [restyAttempts, h i, if_pos]
      rw [ih (i + 1)]
      have harith : i + 1 + n = i + (n + 1) := by omega
      rw [harith]

/-- C6. The client retries transient failures (transport error, status
5xx or 429) up to the configured maximum with the fixed wait
`retryDelay` capped at `retryDelay * 3`, and does not retry other 4xx
failures, which propagate immediately as errors after a single attempt;
with two consecutive 500 responses followed by a success (max retries
3), the call returns the third attempt's payload without error in
exactly three attempts. -/
theorem client_retry_policy :
    (∀ (maxRetries retryDelay : Nat),
       (newClient maxRetries retryDelay).maxRetries = maxRetries ∧
       (newClient maxRetries retryDelay).retryWaitTime = retryDelay ∧
       (newClient maxRetries retryDelay).retryMaxWaitTime = retryDelay * 3) ∧
    (∀ (cfg : ClientConfig) (att : Nat → AttemptResult) (s : Nat)
       (b : List DelegationResponse),
       att 0 = .ok { status := s, body := b } → s < 500 → s ≠ 429 →
       (getDelegations cfg att).2 = 1 ∧
       (s ≠ 200 →
         (getDelegations cfg att).1 = .error (.unexpectedStatus s)) ∧
       (s = 200 → (getDelegations cfg att).1 = .ok b)) ∧
    (∀ (cfg : ClientConfig) (att : Nat → AttemptResult),
       (∀ j, retryCondition (att j) = true) →
       (getDelegations cfg att).2 = cfg.maxRetries + 1) ∧
    (∀ (b : List DelegationResponse) (att : Nat → AttemptResult),
       att 0 = .ok { status := 500, body := [] } →
       att 1 = .ok { status := 500, body := [] } →
       att 2 = .ok { status := 200, body := b } →
       (getDelegations (newClient 3 1) att).1 = .ok b ∧
       (getDelegations (newClient 3 1) att).2 = 3) := by
  refine ⟨fun mr rd => ⟨rfl, rfl, rfl⟩, ?_, ?_, ?_⟩
  · intro cfg att s b hatt hs h429
    have hcond : retryCondition (att 0) = false := by
      rw [hatt]
      simp [retryCondition]
      omega
    have hstop := restyAttempts_stop att 0 hcond cfg.maxRetries
    unfold getDelegations restyExecute
    rw [hstop, hatt]
    by_cases h200 : s = 200
    · subst h200
      exact ⟨by simp, fun hne => absurd rfl hne, fun _ => by simp⟩
    · exact ⟨by simp [h200], fun _ => by simp [h200],
        fun heq => absurd heq h200⟩
  · intro cfg att h
    unfold getDelegations restyExecute
    rw [restyAttempts_all_transient att h cfg.maxRetries 0]
    cases hval : att (0 + cfg.maxRetries) with
    | error e => simp
    | ok resp => by_cases h200 : resp.status = 200 <;> simp [h200]
  · intro b att h0 h1 h2
    have hc0 : retryCondition (att 0) = true := by
      rw [h0]; simp [retryCondition]
    have hc1 : retryCondition (att 1) = true := by
      rw [h1]; simp [retryCondition]
    have hc2 : retryCondition (att 2) = false := by
      rw [h2]; simp [retryCondition]
    unfold getDelegations restyExecute newClient
    simp only [restyAttempts, hc0, hc1, hc2, if_pos, if_false, if_true]
    rw [h2]
    simp

/-- Witness for C6: a 404 propagates after exactly one attempt; a
permanently failing transport exhausts 3 retries in 4 attempts; and the
500/500/200 sequence succeeds on the third attempt. -/
theorem client_retry_policy_witness :
    ((getDelegations (newClient 3 1) c6AttNotFound).2 = 1 ∧
     ((404 : Nat) ≠ 200 →
       (getDelegations (newClient 3 1) c6AttNotFound).1 =
         .error (.unexpectedStatus 404)) ∧
     ((404 : Nat) = 200 →
       (getDelegations (newClient 3 1) c6AttNotFound).1 = .ok [])) ∧
    (getDelegations (newClient 3 1) c6AttDown).2 = (newClient 3 1).maxRetries + 1 ∧
    ((getDelegations (newClient 3 1) c6AttScenario).1 = .ok [] ∧
     (getDelegations (newClient 3 1) c6AttScenario).2 = 3) :=
  ⟨client_retry_policy.2.1 (newClient 3 1) c6AttNotFound 404 [] rfl
      (by decide) (by decide),
   client_retry_policy.2.2.1 (newClient 3 1) c6AttDown (fun j => rfl),
   client_retry_policy.2.2.2 [] c6AttScenario rfl rfl rfl⟩

theorem convert_length_all_applied (freshIds : Nat → String) (now : Int)
    (p : List DelegationResponse) (ha : ∀ d ∈ p, d.status = "applied") :
    ∀ k, (convertToDomainDelegations freshIds now k p).length = p.length := by
  induction p with
  | nil => intro k; rfl
  | cons d rest ih =>
      intro k
      have hd : d.status = "applied" := ha d (List.mem_cons_self d rest)
      simp only [convertToDomainDelegations, hd, if_pos, List.length_cons]
      rw [ih (fun x hx => ha x (List.mem_cons_of_mem d hx)) (k + 1)]

theorem consumerRun_sum (pages : List (List Delegation)) :
    ∀ buf, (((consumerRun buf pages).1.map List.length).sum : Nat) +
      (consumerRun buf pages).2.length =
      buf.length + (pages.map List.length).sum := by
  induction pages with
  | nil => intro buf; simp [consumerRun]
  | cons p rest ih =>
      intro buf
      by_cases hth : 1000 ≤ (buf ++ p).length
      · simp only [consumerRun, hth, if_pos, List.map_cons, List.sum_cons]
        have := ih []
        simp only [List.length_nil] at this
        rw [Nat.add_assoc, this]
        simp [List.length_append]
        omega
      · simp only [consumerRun, hth, if_neg, if_false]
        rw [ih (buf ++ p)]
        simp [List.length_append]
        omega

theorem consumerRun_threshold (pages : List (List Delegation)) :
    ∀ buf b, b ∈ (consumerRun buf pages).1 → 1000 ≤ b.length := by
  induction pages with
  | nil =>
      intro buf b hb
      simp [consumerRun] at hb
  | cons p rest ih =>
      intro buf b hb
      by_cases hth : 1000 ≤ (buf ++ p).length
      · simp only [consumerRun, hth, if_pos, List.mem_cons] at hb
        rcases hb with rfl | hb
        · exact hth
        · exact ih [] b hb
      · simp only [consumerRun, hth, if_neg, if_false] at hb
        exact ih (buf ++ p) b hb

theorem consumerFlushes_sum (pages : List (List Delegation)) :
    ((consumerFlushes pages).map List.length).sum =
      (pages.map List.length).sum := by
  unfold consumerFlushes
  have h := consumerRun_sum pages []
  simp only [List.length_nil, Nat.zero_add] at h
  cases hv : (consumerRun [] pages).2 with
  | nil =>
      rw [hv] at h
      simp only [hv, List.isEmpty_nil, if_true, List.append_nil]
      simpa using h
  | cons x xs =>
      rw [hv] at h
      simp only [hv, List.isEmpty_cons, Bool.false_eq_true, if_false,
        List.map_append, List.sum_append, List.map_cons, List.map_nil,
        List.sum_cons, List.sum_nil]
      simp only [List.length_cons] at h ⊢
      omega

theorem consumerFlushes_nonfinal_threshold (pages : List (List Delegation)) :
    (consumerFlushes pages).dropLast.all
      (fun b => decide (1000 ≤ b.length)) = true := by
  rw [List.all_eq_true]
  intro b hb
  have hbmem : b ∈ (consumerRun [] pages).1 := by
    unfold consumerFlushes at hb
    simp only [] at hb
    cases hv : (consumerRun [] pages).2 with
    | nil =>
        rw [hv] at hb
        simp only [List.isEmpty_nil, if_true, List.append_nil] at hb
        exact List.dropLast_subset _ hb
    | cons x xs =>
        rw [hv] at hb
        simp only [List.isEmpty_cons, Bool.false_eq_true, if_false] at hb
        rw [List.dropLast_concat] at hb
        exact hb
  simpa using consumerRun_threshold pages [] b hbmem

theorem getHistorical_step
    (source : Nat → Except String (List DelegationResponse))
    (fuel offset : Nat) (page : List DelegationResponse)
    (hsrc : source offset = .ok page) (hne : page.isEmpty = false) :
    getHistoricalDelegations source (fuel + 1) offset =
      (page :: (getHistoricalDelegations source fuel (offset + page.length)).1,
       (getHistoricalDelegations source fuel (offset + page.length)).2) := by
  simp [getHistoricalDelegations, hsrc, hne]

theorem getHistorical_stop
    (source : Nat → Except String (List DelegationResponse))
    (fuel offset : Nat) (hsrc : source offset = .ok []) :
    getHistoricalDelegations source (fuel + 1) offset = ([], none) := by
  simp [getHistoricalDelegations, hsrc]

/-- C5. For a source returning three 500-event pages then an empty
page: the producer publishes exactly the three non-empty pages and
stops cleanly at the first empty page; the consumer performs exactly
the flushes `[1000, 500]` — one threshold flush when the buffer
reaches 1000 and exactly one final flush of the 500-event remainder at
channel close — 1500 events in total are upserted and the backfill
returns without error. In general the consumer loses nothing (the
flushed sizes sum to the events received) and every non-final flush is
a threshold flush of at least 1000 events. -/
theorem indexHistorical_backfill_flush
    (p1 p2 p3 : List DelegationResponse)
    (h1 : p1.length = 500) (h2 : p2.length = 500) (h3 : p3.length = 500)
    (ha1 : ∀ d ∈ p1, d.status = "applied")
    (ha2 : ∀ d ∈ p2, d.status = "applied")
    (ha3 : ∀ d ∈ p3, d.status = "applied") :
    getHistoricalDelegations (c5Source p1 p2 p3) 4 0 = ([p1, p2, p3], none) ∧
    (indexHistorical (c5Env p1 p2 p3) []).flushes = [1000, 500] ∧
    (indexHistorical (c5Env p1 p2 p3) []).flushes.sum = 1500 ∧
    (indexHistorical (c5Env p1 p2 p3) []).processed = 1500 ∧
    (indexHistorical (c5Env p1 p2 p3) []).ret = none ∧
    (∀ pages : List (List Delegation),
       ((consumerFlushes pages).map List.length).sum =
         (pages.map List.length).sum) ∧
    (∀ pages : List (List Delegation),
       (consumerFlushes pages).dropLast.all
         (fun b => decide (1000 ≤ b.length)) = true) := by
  have hne1 : p1.isEmpty = false := by
    cases p1
    · simp at h1
    · rfl
  have hne2 : p2.isEmpty = false := by
    cases p2
    · simp at h2
    · rfl
  have hne3 : p3.isEmpty = false := by
    cases p3
    · simp at h3
    · rfl
  have e1 : c5Source p1 p2 p3 0 = .ok p1 := rfl
  have e2 : c5Source p1 p2 p3 500 = .ok p2 := rfl
  have e3 : c5Source p1 p2 p3 1000 = .ok p3 := rfl
  have e4 : c5Source p1 p2 p3 1500 = .ok [] := rfl
  have hp : getHistoricalDelegations (c5Source p1 p2 p3) 4 0 =
      ([p1, p2, p3], none) := by
    rw [show (4 : Nat) = 3 + 1 from rfl,
      getHistorical_step _ 3 0 p1 e1 hne1, h1,
      show (0 : Nat) + 500 = 500 from rfl,
      show (3 : Nat) = 2 + 1 from rfl,
      getHistorical_step _ 2 500 p2 e2 hne2, h2,
      show (500 : Nat) + 500 = 1000 from rfl,
      show (2 : Nat) = 1 + 1 from rfl,
      getHistorical_step _ 1 1000 p3 e3 hne3, h3,
      show (1000 : Nat) + 500 = 1500 from rfl,
      show (1 : Nat) = 0 + 1 from rfl,
      getHistorical_stop _ 0 1500 e4]
  have hcv1 : (convertToDomainDelegations (fun _ => "u") 1000000000 0 p1).length = 500 := by
    rw [convert_length_all_applied _ _ p1 ha1 0]
    exact h1
  have hcv2 : (convertToDomainDelegations (fun _ => "u") 1000000000 0 p2).length = 500 := by
    rw [convert_length_all_applied _ _ p2 ha2 0]
    exact h2
  have hcv3 : (convertToDomainDelegations (fun _ => "u") 1000000000 0 p3).length = 500 := by
    rw [convert_length_all_applied _ _ p3 ha3 0]
    exact h3
  have hq3ne : (convertToDomainDelegations (fun _ => "u") 1000000000 0 p3).isEmpty = false := by
    cases hc : convertToDomainDelegations (fun _ => "u") 1000000000 0 p3 with
    | nil => rw [hc] at hcv3; simp at hcv3
    | cons a l => rfl
  have hrun : consumerRun []
      [convertToDomainDelegations (fun _ => "u") 1000000000 0 p1,
       convertToDomainDelegations (fun _ => "u") 1000000000 0 p2,
       convertToDomainDelegations (fun _ => "u") 1000000000 0 p3] =
      ([convertToDomainDelegations (fun _ => "u") 1000000000 0 p1 ++
        convertToDomainDelegations (fun _ => "u") 1000000000 0 p2],
       convertToDomainDelegations (fun _ => "u") 1000000000 0 p3) := by
    simp only [consumerRun, List.nil_append,
      List.length_append, hcv1, hcv2, hcv3]
    norm_num
  have hflu : consumerFlushes
      [convertToDomainDelegations (fun _ => "u") 1000000000 0 p1,
       convertToDomainDelegations (fun _ => "u") 1000000000 0 p2,
       convertToDomainDelegations (fun _ => "u") 1000000000 0 p3] =
      [convertToDomainDelegations (fun _ => "u") 1000000000 0 p1 ++
       convertToDomainDelegations (fun _ => "u") 1000000000 0 p2,
       convertToDomainDelegations (fun _ => "u") 1000000000 0 p3] := by
    unfold consumerFlushes
    rw [hrun]
    simp only [hq3ne, Bool.false_eq_true, if_false]
    rfl
  have hIH : (indexHistorical (c5Env p1 p2 p3) []).flushes = [1000, 500] ∧
      (indexHistorical (c5Env p1 p2 p3) []).processed = 1500 ∧
      (indexHistorical (c5Env p1 p2 p3) []).ret = none := by
    unfold indexHistorical
    simp only [c5Env, hp, findAll, List.foldr_nil, List.length_nil,
      Nat.lt_irrefl, if_false, hourSeconds]
    norm_num [List.map_cons, List.map_nil, hflu, List.length_append,
      hcv1, hcv2, hcv3, h1, h2, h3]
  refine ⟨hp, hIH.1, ?_, hIH.2.1, hIH.2.2, consumerFlushes_sum,
    consumerFlushes_nonfinal_threshold⟩
  rw [hIH.1]
  rfl

/-- Witness for C5 at the concrete page `c5Page` used for all three
pages: producer output, flush sizes, totals and clean termination. -/
theorem indexHistorical_backfill_flush_witness :
    getHistoricalDelegations (c5Source c5Page c5Page c5Page) 4 0 =
      ([c5Page, c5Page, c5Page], none) ∧
    (indexHistorical (c5Env c5Page c5Page c5Page) []).flushes = [1000, 500] ∧
    (indexHistorical (c5Env c5Page c5Page c5Page) []).flushes.sum = 1500 ∧
    (indexHistorical (c5Env c5Page c5Page c5Page) []).processed = 1500 ∧
    (indexHistorical (c5Env c5Page c5Page c5Page) []).ret = none ∧
    (∀ pages : List (List Delegation),
       ((consumerFlushes pages).map List.length).sum =
         (pages.map List.length).sum) ∧
    (∀ pages : List (List Delegation),
       (consumerFlushes pages).dropLast.all
         (fun b => decide (1000 ≤ b.length)) = true) :=
  indexHistorical_backfill_flush c5Page c5Page c5Page
    (by rw [c5Page, List.length_replicate])
    (by rw [c5Page, List.length_replicate])
    (by rw [c5Page, List.length_replicate])
    (fun d hd => by rw [List.eq_of_mem_replicate hd])
    (fun d hd => by rw [List.eq_of_mem_replicate hd])
    (fun d hd => by rw [List.eq_of_mem_replicate hd])

end TezosDelegation
